import Mathlib

/-
Verification of the per-frame combat simulation core of the repository
(source: src/src/app.rs). The f32 fields of the Rust code are modelled as
exact rationals; all game logic (timers, spawning, movement, sorting,
attack resolution) is transcribed directly from the source.
-/

set_option linter.unusedVariables false

/-- Countdown timer, transcribed from struct Timer in src/src/app.rs. -/
structure Timer where
  total : ℚ
  remaining : ℚ
  has_just_finished : Bool
  one_shot : Bool
  paused : Bool
deriving DecidableEq, Repr

/-- Transcribed from Timer::new: no validation is performed on total. -/
def Timer.new (total : ℚ) : Timer :=
  { total := total
    remaining := total
    has_just_finished := false
    one_shot := false
    paused := false }

/-- Transcribed from Timer::tick. -/
def Timer.tick (t : Timer) (delta : ℚ) : Timer :=
  if t.paused then t
  else
    let remaining := t.remaining - delta
    if remaining ≤ 0 then
      { t with
        remaining := remaining + t.total
        has_just_finished := true
        paused := if t.one_shot then true else t.paused }
    else
      { t with remaining := remaining, has_just_finished := false }

/-- Health pool, transcribed from struct HitPoints. -/
structure HitPoints where
  maximum : ℚ
  current : ℚ
deriving DecidableEq, Repr

/-- Transcribed from HitPoints::new_full. -/
def HitPoints.new_full (maximum : ℚ) : HitPoints :=
  { maximum := maximum, current := maximum }

/-- Transcribed from HitPoints::take_damage: unconditional subtraction. -/
def HitPoints.take_damage (hp : HitPoints) (damage : ℚ) : HitPoints :=
  { hp with current := hp.current - damage }

/-- Transcribed from HitPoints::reset. -/
def HitPoints.reset (hp : HitPoints) : HitPoints :=
  { hp with current := hp.maximum }

/-- Scalar distance to the base, transcribed from struct Distance. -/
structure Distance where
  val : ℚ
deriving DecidableEq, Repr

/-- Transcribed from Distance::start. -/
def Distance.start : Distance := ⟨100⟩

/-- Transcribed from struct Enemy. -/
structure Enemy where
  hp : HitPoints
  damage : ℚ
  speed : ℚ
  distance : Distance
deriving DecidableEq, Repr

/-- Transcribed from enum EnemyAfterTick. -/
inductive EnemyAfterTick where
  | Normal
  | ReachedExcellency
deriving DecidableEq, Repr

/-- Transcribed from Enemy::tick: the Rust method mutates the enemy in
place and returns the outcome; here the updated enemy is returned
alongside the outcome. -/
def Enemy.tick (e : Enemy) (delta : ℚ) : Enemy × EnemyAfterTick :=
  let e2 : Enemy := { e with distance := ⟨e.distance.val - delta * e.speed⟩ }
  (e2, if e2.distance.val > 0 then .Normal else .ReachedExcellency)

/-- Transcribed from struct BasicAttack (the shape shared by the basic and
the big attack). -/
structure BasicAttack where
  cooldown_timer : Timer
  damage : ℚ
  range : ℚ
  max_targets : Nat
deriving DecidableEq, Repr

/-- Transcribed from struct Excellency (the base). -/
structure Excellency where
  hp : HitPoints
  basic_attack : BasicAttack
  big_attack : BasicAttack
deriving DecidableEq, Repr

/-- Transcribed from struct EnemySpawner. -/
structure EnemySpawner where
  timer : Timer
  maximum_hp : ℚ
  speed : ℚ
  damage : ℚ
deriving DecidableEq, Repr

/-- Transcribed from struct GameState. -/
structure GameState where
  excellency : Excellency
  enemies : List Enemy
  enemy_spawner : EnemySpawner
deriving DecidableEq, Repr

/-- The movement loop of GameState::tick (lines 76-83 of src/src/app.rs):
each live enemy is ticked; Normal enemies are kept (in order), enemies
that reached the base apply their damage to the base health pool. -/
def moveEnemies (delta : ℚ) (es : List Enemy) (hp : HitPoints) :
    List Enemy × HitPoints :=
  match es with
  | [] => ([], hp)
  | e :: rest =>
    let et := e.tick delta
    match et.2 with
    | .Normal =>
      let r := moveEnemies delta rest hp
      (et.1 :: r.1, r.2)
    | .ReachedExcellency =>
      moveEnemies delta rest (hp.take_damage et.1.damage)

/-- Ascending order by distance, the comparison used by the sort in
GameState::tick (lines 95-99). -/
def enemyLE (a b : Enemy) : Prop :=
  a.distance.val ≤ b.distance.val

instance : DecidableRel enemyLE := fun a b =>
  inferInstanceAs (Decidable (a.distance.val ≤ b.distance.val))

instance : IsTotal Enemy enemyLE :=
  ⟨fun a b => le_total a.distance.val b.distance.val⟩

instance : IsTrans Enemy enemyLE :=
  ⟨fun _ _ _ hab hbc => le_trans hab hbc⟩

/-- The stable ascending sort by distance (Rust slice sort with the
distance comparison; a stable sort for a total preorder is extensionally
unique, and is modelled here by insertion sort, which is stable). -/
def sortEnemies (es : List Enemy) : List Enemy :=
  List.insertionSort enemyLE es

/-- One attack resolution pass of GameState::tick (lines 108-126 and
136-154): the Rust filter_map with the mutable targets_hit counter,
written as a recursion threading the counter. -/
def attackPass (atk : BasicAttack) : Nat → List Enemy → List Enemy
  | _, [] => []
  | targets_hit, e :: rest =>
    if targets_hit ≥ atk.max_targets then
      e :: attackPass atk targets_hit rest
    else if e.distance.val ≤ atk.range then
      let e2 : Enemy := { e with hp := e.hp.take_damage atk.damage }
      if e2.hp.current ≤ 0 then
        attackPass atk (targets_hit + 1) rest
      else
        e2 :: attackPass atk (targets_hit + 1) rest
    else
      e :: attackPass atk targets_hit rest

/-- Transcribed from GameState::tick (lines 73-158): movement, spawning,
sorting, basic attack, big attack, commit. -/
def GameState.tick (gs : GameState) (delta : ℚ) : GameState :=
  let moved := moveEnemies delta gs.enemies gs.excellency.hp
  let spawnTimer := gs.enemy_spawner.timer.tick delta
  let enemies2 :=
    if spawnTimer.has_just_finished then
      moved.1 ++ [{ hp := HitPoints.new_full gs.enemy_spawner.maximum_hp
                    damage := gs.enemy_spawner.damage
                    speed := gs.enemy_spawner.speed
                    distance := Distance.start }]
    else moved.1
  let enemies3 := sortEnemies enemies2
  let basicTimer := gs.excellency.basic_attack.cooldown_timer.tick delta
  let basicAtk := { gs.excellency.basic_attack with cooldown_timer := basicTimer }
  let enemies4 :=
    if basicTimer.has_just_finished then attackPass basicAtk 0 enemies3
    else enemies3
  let bigTimer := gs.excellency.big_attack.cooldown_timer.tick delta
  let bigAtk := { gs.excellency.big_attack with cooldown_timer := bigTimer }
  let enemies5 :=
    if bigTimer.has_just_finished then attackPass bigAtk 0 enemies4
    else enemies4
  { excellency := { hp := moved.2, basic_attack := basicAtk, big_attack := bigAtk }
    enemies := enemies5
    enemy_spawner := { gs.enemy_spawner with timer := spawnTimer } }

/-- The enemy that EnemySpawner emits on a timer fire (lines 87-92 of
src/src/app.rs): full hp, stats copied from the spawner configuration,
distance at the starting constant. -/
def spawnedEnemy (sp : EnemySpawner) : Enemy :=
  { hp := HitPoints.new_full sp.maximum_hp
    damage := sp.damage
    speed := sp.speed
    distance := Distance.start }

/-- Stage 1 of GameState::tick: movement and base-damage reconciliation. -/
def stageMove (delta : ℚ) (gs : GameState) : GameState :=
  let moved := moveEnemies delta gs.enemies gs.excellency.hp
  { gs with
    enemies := moved.1
    excellency := { gs.excellency with hp := moved.2 } }

/-- Stage 2 of GameState::tick: spawner timer advance and conditional
spawn of one enemy. -/
def stageSpawn (delta : ℚ) (gs : GameState) : GameState :=
  let spawnTimer := gs.enemy_spawner.timer.tick delta
  { gs with
    enemies :=
      if spawnTimer.has_just_finished then gs.enemies ++ [spawnedEnemy gs.enemy_spawner]
      else gs.enemies
    enemy_spawner := { gs.enemy_spawner with timer := spawnTimer } }

/-- Stage 3 of GameState::tick: ascending sort by distance. -/
def stageSort (gs : GameState) : GameState :=
  { gs with enemies := sortEnemies gs.enemies }

/-- Stage 4 of GameState::tick: basic attack cooldown advance and
conditional resolution. -/
def stageBasic (delta : ℚ) (gs : GameState) : GameState :=
  let timer := gs.excellency.basic_attack.cooldown_timer.tick delta
  let atk := { gs.excellency.basic_attack with cooldown_timer := timer }
  { gs with
    excellency := { gs.excellency with basic_attack := atk }
    enemies := if timer.has_just_finished then attackPass atk 0 gs.enemies else gs.enemies }

/-- Stage 5 of GameState::tick: big attack cooldown advance and
conditional resolution. -/
def stageBig (delta : ℚ) (gs : GameState) : GameState :=
  let timer := gs.excellency.big_attack.cooldown_timer.tick delta
  let atk := { gs.excellency.big_attack with cooldown_timer := timer }
  { gs with
    excellency := { gs.excellency with big_attack := atk }
    enemies := if timer.has_just_finished then attackPass atk 0 gs.enemies else gs.enemies }

/- Helper lemmas about Timer.tick, shared by several theorems below. -/

theorem Timer.tick_of_paused (t : Timer) (delta : ℚ) (h : t.paused = true) :
    t.tick delta = t := by
  simp [Timer.tick, h]

theorem Timer.tick_fire (t : Timer) (delta : ℚ) (hp : t.paused = false)
    (h : t.remaining - delta ≤ 0) :
    t.tick delta =
      { t with
        remaining := t.remaining - delta + t.total
        has_just_finished := true
        paused := if t.one_shot then true else t.paused } := by
  simp [Timer.tick, hp, h]

theorem Timer.tick_no_fire (t : Timer) (delta : ℚ) (hp : t.paused = false)
    (h : ¬ t.remaining - delta ≤ 0) :
    t.tick delta = { t with remaining := t.remaining - delta, has_just_finished := false } := by
  simp [Timer.tick, hp, h]

/- Concrete configurations used by the claim theorems below. -/

/-- A one-shot timer with period 4, used to exercise the one-shot path. -/
def oneShotTimer : Timer :=
  { total := 4, remaining := 4, has_just_finished := false, one_shot := true, paused := false }

/-- C4: Timer.tick on a non-paused timer subtracts delta from remaining;
when the result is ≤ 0 it sets the just-finished flag and adds total back
onto remaining (no reset to total), otherwise it clears the flag; a paused
timer is unchanged; and a fresh timer of period 7 ticked by exactly 7 has
the flag set with remaining equal to 7 again. -/
theorem timer_tick_contract :
    (∀ (t : Timer) (delta : ℚ), t.paused = true → t.tick delta = t) ∧
    (∀ (t : Timer) (delta : ℚ), t.paused = false → t.remaining - delta ≤ 0 →
      (t.tick delta).has_just_finished = true ∧
      (t.tick delta).remaining = t.remaining - delta + t.total) ∧
    (∀ (t : Timer) (delta : ℚ), t.paused = false → ¬ t.remaining - delta ≤ 0 →
      (t.tick delta).has_just_finished = false ∧
      (t.tick delta).remaining = t.remaining - delta) ∧
    ((Timer.new 7).tick 7).has_just_finished = true ∧
    ((Timer.new 7).tick 7).remaining = 7 := by
  refine ⟨fun t delta h => Timer.tick_of_paused t delta h,
    fun t delta hp hr => ?_, fun t delta hp hr => ?_, ?_, ?_⟩
  · rw [Timer.tick_fire t delta hp hr]
    exact ⟨rfl, rfl⟩
  · rw [Timer.tick_no_fire t delta hp hr]
    exact ⟨rfl, rfl⟩
  · rw [Timer.tick_fire (Timer.new 7) 7 rfl (by norm_num [Timer.new])]
  · rw [Timer.tick_fire (Timer.new 7) 7 rfl (by norm_num [Timer.new])]
    norm_num [Timer.new]

/-- Witness for timer_tick_contract at a concrete firing input. -/
theorem timer_tick_contract_witness :
    ((Timer.new 3).tick 5).has_just_finished = true ∧
    ((Timer.new 3).tick 5).remaining = (Timer.new 3).remaining - 5 + (Timer.new 3).total :=
  timer_tick_contract.2.1 (Timer.new 3) 5 rfl (by norm_num [Timer.new])

/-- C5 counterexample: a fresh timer with total 5 and remaining 5, ticked
with delta 100, fires, yet its remaining ends at -90, outside (0, 5]. -/
theorem timer_renorm_counterexample :
    0 < (Timer.new 5).total ∧ 0 < (Timer.new 5).remaining ∧
    (Timer.new 5).remaining ≤ (Timer.new 5).total ∧ (0 : ℚ) ≤ 100 ∧
    ((Timer.new 5).tick 100).has_just_finished = true ∧
    ¬ 0 < ((Timer.new 5).tick 100).remaining := by
  rw [Timer.tick_fire (Timer.new 5) 100 rfl (by norm_num [Timer.new])]
  norm_num [Timer.new]

/-- C5 amended: when a non-paused timer with remaining in (0, total] fires
on a tick with 0 ≤ delta < remaining + total, the re-normalized remaining
lies again in (0, total]; the extra upper bound on delta is forced, the
re-normalization adds total only once. -/
theorem timer_renorm_amended :
    ∀ (t : Timer) (delta : ℚ), t.paused = false → 0 < t.total →
      0 < t.remaining → t.remaining ≤ t.total → 0 ≤ delta →
      t.remaining - delta ≤ 0 → delta < t.remaining + t.total →
      0 < (t.tick delta).remaining ∧ (t.tick delta).remaining ≤ t.total := by
  intro t delta hp htot hr0 hrt hd hfire hlt
  rw [Timer.tick_fire t delta hp hfire]
  constructor
  · show 0 < t.remaining - delta + t.total
    linarith
  · show t.remaining - delta + t.total ≤ t.total
    linarith

/-- Witness for timer_renorm_amended at a concrete input. -/
theorem timer_renorm_amended_witness :
    0 < ((Timer.new 5).tick 6).remaining ∧
    ((Timer.new 5).tick 6).remaining ≤ (Timer.new 5).total :=
  timer_renorm_amended (Timer.new 5) 6 rfl (by norm_num [Timer.new])
    (by norm_num [Timer.new]) (by norm_num [Timer.new]) (by norm_num)
    (by norm_num [Timer.new]) (by norm_num [Timer.new])

/-- C6 counterexample: Timer.new accepts a non-positive total without any
rejection; the resulting timer exists with total -1 and fires on every
tick. -/
theorem timer_new_counterexample :
    (Timer.new (-1)).total = -1 ∧ (Timer.new (-1)).total ≤ 0 ∧
    ((Timer.new (-1)).tick 1).has_just_finished = true ∧
    (((Timer.new (-1)).tick 1).tick 1).has_just_finished = true := by
  refine ⟨rfl, by norm_num [Timer.new], ?_, ?_⟩
  · rw [Timer.tick_fire (Timer.new (-1)) 1 rfl (by norm_num [Timer.new])]
  · rw [Timer.tick_fire (Timer.new (-1)) 1 rfl (by norm_num [Timer.new])]
    rw [Timer.tick_fire _ 1 rfl (by norm_num [Timer.new])]

/-- C6 amended: Timer construction performs no validation at all; for any
total, also a non-positive one, it returns a timer with that total and
with remaining equal to it, and every tick with delta ≥ 0 of a non-paused,
non-one-shot timer whose total and remaining are ≤ 0 fires and leaves the
timer in the same fire-every-tick condition. -/
theorem timer_new_no_validation :
    (∀ c : ℚ, Timer.new c =
      { total := c, remaining := c, has_just_finished := false,
        one_shot := false, paused := false }) ∧
    (∀ (t : Timer) (delta : ℚ), t.paused = false → t.one_shot = false →
      t.total ≤ 0 → t.remaining ≤ 0 → 0 ≤ delta →
      (t.tick delta).has_just_finished = true ∧ (t.tick delta).paused = false ∧
      (t.tick delta).one_shot = false ∧ (t.tick delta).total ≤ 0 ∧
      (t.tick delta).remaining ≤ 0) := by
  refine ⟨fun c => rfl, fun t delta hp ho htot hr hd => ?_⟩
  rw [Timer.tick_fire t delta hp (by linarith)]
  refine ⟨rfl, by simp [ho, hp], by simp [ho], htot, ?_⟩
  show t.remaining - delta + t.total ≤ 0
  linarith

/-- Witness for timer_new_no_validation at a concrete input. -/
theorem timer_new_no_validation_witness :
    ((Timer.new (-1)).tick 2).has_just_finished = true ∧
    ((Timer.new (-1)).tick 2).paused = false ∧
    ((Timer.new (-1)).tick 2).one_shot = false ∧
    ((Timer.new (-1)).tick 2).total ≤ 0 ∧
    ((Timer.new (-1)).tick 2).remaining ≤ 0 :=
  timer_new_no_validation.2 (Timer.new (-1)) 2 rfl rfl
    (by norm_num [Timer.new]) (by norm_num [Timer.new]) (by norm_num)

/-- C7: a one-shot timer that fires becomes paused with the just-finished
flag set, and a paused timer is left completely unchanged by any further
sequence of ticks, so it never fires again and the flag stays true. -/
theorem one_shot_fires_once :
    (∀ (t : Timer) (delta : ℚ), t.paused = false → t.one_shot = true →
      t.remaining - delta ≤ 0 →
      (t.tick delta).has_just_finished = true ∧ (t.tick delta).paused = true) ∧
    (∀ t : Timer, t.paused = true → ∀ ds : List ℚ, ds.foldl Timer.tick t = t) := by
  constructor
  · intro t delta hp ho h
    rw [Timer.tick_fire t delta hp h]
    exact ⟨rfl, by simp [ho]⟩
  · intro t hp ds
    induction ds with
    | nil => rfl
    | cons d ds ih => rw [List.foldl_cons, Timer.tick_of_paused t d hp]; exact ih

/-- Witness for one_shot_fires_once: a concrete one-shot timer fires once
and then a further sequence of ticks leaves it unchanged. -/
theorem one_shot_fires_once_witness :
    ((oneShotTimer.tick 4).has_just_finished = true ∧
      (oneShotTimer.tick 4).paused = true) ∧
    [1, 2, 3].foldl Timer.tick (oneShotTimer.tick 4) = oneShotTimer.tick 4 :=
  ⟨one_shot_fires_once.1 oneShotTimer 4 rfl rfl (by norm_num [oneShotTimer]),
    one_shot_fires_once.2 (oneShotTimer.tick 4)
      (one_shot_fires_once.1 oneShotTimer 4 rfl rfl (by norm_num [oneShotTimer])).2
      [1, 2, 3]⟩

/- Helper lemmas about attackPass, shared by several theorems below. -/

theorem attackPass_of_budget_exhausted (atk : BasicAttack) :
    ∀ (t : Nat) (es : List Enemy), atk.max_targets ≤ t → attackPass atk t es = es := by
  intro t es h
  induction es with
  | nil => rfl
  | cons e rest ih => rw [attackPass, if_pos h, ih]

theorem attackPass_of_out_of_range (atk : BasicAttack) :
    ∀ (t : Nat) (es : List Enemy), (∀ e ∈ es, atk.range < e.distance.val) →
      attackPass atk t es = es := by
  intro t es
  induction es generalizing t with
  | nil => intro h; rfl
  | cons e rest ih =>
    intro h
    have he : ¬ e.distance.val ≤ atk.range := not_le.2 (h e (List.mem_cons_self e rest))
    have hrest := fun x hx => h x (List.mem_cons_of_mem e hx)
    by_cases ht : t ≥ atk.max_targets
    · rw [attackPass, if_pos ht, ih t hrest]
    · rw [attackPass, if_neg ht, if_neg he, ih t hrest]

theorem attackPass_mem (atk : BasicAttack) :
    ∀ (t : Nat) (es : List Enemy) (x : Enemy), x ∈ attackPass atk t es →
      x ∈ es ∨ ∃ e ∈ es, e.distance.val ≤ atk.range ∧
        x = { e with hp := e.hp.take_damage atk.damage } := by
  intro t es
  induction es generalizing t with
  | nil => intro x hx; rw [attackPass] at hx; cases hx
  | cons e rest ih =>
    intro x hx
    rw [attackPass] at hx
    by_cases h1 : t ≥ atk.max_targets
    · rw [if_pos h1] at hx
      rcases List.mem_cons.1 hx with hxe | hxr
      · exact Or.inl (hxe ▸ List.mem_cons_self e rest)
      · rcases ih t x hxr with hm | ⟨y, hy, hyr, hyx⟩
        · exact Or.inl (List.mem_cons_of_mem e hm)
        · exact Or.inr ⟨y, List.mem_cons_of_mem e hy, hyr, hyx⟩
    · rw [if_neg h1] at hx
      by_cases h2 : e.distance.val ≤ atk.range
      · rw [if_pos h2] at hx
        by_cases h3 : ({ e with hp := e.hp.take_damage atk.damage } : Enemy).hp.current ≤ 0
        · rw [if_pos h3] at hx
          rcases ih (t + 1) x hx with hm | ⟨y, hy, hyr, hyx⟩
          · exact Or.inl (List.mem_cons_of_mem e hm)
          · exact Or.inr ⟨y, List.mem_cons_of_mem e hy, hyr, hyx⟩
        · rw [if_neg h3] at hx
          rcases List.mem_cons.1 hx with hxe | hxr
          · exact Or.inr ⟨e, List.mem_cons_self e rest, h2, hxe⟩
          · rcases ih (t + 1) x hxr with hm | ⟨y, hy, hyr, hyx⟩
            · exact Or.inl (List.mem_cons_of_mem e hm)
            · exact Or.inr ⟨y, List.mem_cons_of_mem e hy, hyr, hyx⟩
      · rw [if_neg h2] at hx
        rcases List.mem_cons.1 hx with hxe | hxr
        · exact Or.inl (hxe ▸ List.mem_cons_self e rest)
        · rcases ih t x hxr with hm | ⟨y, hy, hyr, hyx⟩
          · exact Or.inl (List.mem_cons_of_mem e hm)
          · exact Or.inr ⟨y, List.mem_cons_of_mem e hy, hyr, hyx⟩

/-- An attack with damage 1, range 50 and a cap of 3 targets. -/
def capAttack : BasicAttack :=
  { cooldown_timer := Timer.new 1, damage := 1, range := 50, max_targets := 3 }

/-- Five enemies within range 50, sorted ascending by distance. -/
def capEnemies : List Enemy :=
  [ { hp := ⟨10, 10⟩, damage := 0, speed := 1, distance := ⟨1⟩ }
  , { hp := ⟨10, 10⟩, damage := 0, speed := 1, distance := ⟨2⟩ }
  , { hp := ⟨10, 10⟩, damage := 0, speed := 1, distance := ⟨3⟩ }
  , { hp := ⟨10, 10⟩, damage := 0, speed := 1, distance := ⟨4⟩ }
  , { hp := ⟨10, 10⟩, damage := 0, speed := 1, distance := ⟨5⟩ } ]

/-- C2: a firing attack strikes at most max_targets enemies within range,
scanning in list order: with the budget already exhausted the pass leaves
every enemy unchanged, a pass over enemies all out of range leaves every
enemy unchanged, every survivor of a pass is an untouched original or an
in-range original hit exactly once for damage, and for 5 in-range enemies
with max_targets 3 exactly the 3 closest are damaged and the other 2 are
untouched. -/
theorem attack_target_cap :
    (∀ (atk : BasicAttack) (t : Nat) (es : List Enemy), atk.max_targets ≤ t →
      attackPass atk t es = es) ∧
    (∀ (atk : BasicAttack) (t : Nat) (es : List Enemy),
      (∀ e ∈ es, atk.range < e.distance.val) → attackPass atk t es = es) ∧
    (∀ (atk : BasicAttack) (t : Nat) (es : List Enemy) (x : Enemy),
      x ∈ attackPass atk t es →
      x ∈ es ∨ ∃ e ∈ es, e.distance.val ≤ atk.range ∧
        x = { e with hp := e.hp.take_damage atk.damage }) ∧
    attackPass capAttack 0 capEnemies =
      [ { hp := ⟨10, 9⟩, damage := 0, speed := 1, distance := ⟨1⟩ }
      , { hp := ⟨10, 9⟩, damage := 0, speed := 1, distance := ⟨2⟩ }
      , { hp := ⟨10, 9⟩, damage := 0, speed := 1, distance := ⟨3⟩ }
      , { hp := ⟨10, 10⟩, damage := 0, speed := 1, distance := ⟨4⟩ }
      , { hp := ⟨10, 10⟩, damage := 0, speed := 1, distance := ⟨5⟩ } ] := by
  refine ⟨attackPass_of_budget_exhausted, attackPass_of_out_of_range, attackPass_mem, ?_⟩
  norm_num [capAttack, capEnemies, attackPass, HitPoints.take_damage, Timer.new]

/-- Witness for attack_target_cap at concrete inputs. -/
theorem attack_target_cap_witness :
    attackPass capAttack 3 capEnemies = capEnemies ∧
    attackPass capAttack 0 [ { hp := ⟨10, 10⟩, damage := 0, speed := 1, distance := ⟨60⟩ } ] =
      [ { hp := ⟨10, 10⟩, damage := 0, speed := 1, distance := ⟨60⟩ } ] :=
  ⟨attack_target_cap.1 capAttack 3 capEnemies (by norm_num [capAttack]),
    attack_target_cap.2.1 capAttack 0 _ (by
      intro e he
      rw [List.mem_singleton] at he
      rw [he]
      norm_num [capAttack])⟩

/-- An attack with damage 10, range 50 and a cap of 2 targets. -/
def killAttack : BasicAttack :=
  { cooldown_timer := Timer.new 1, damage := 10, range := 50, max_targets := 2 }

/-- Three in-range enemies whose first member dies to one hit of
killAttack. -/
def killList : List Enemy :=
  [ { hp := ⟨5, 5⟩, damage := 0, speed := 1, distance := ⟨1⟩ }
  , { hp := ⟨100, 100⟩, damage := 0, speed := 1, distance := ⟨2⟩ }
  , { hp := ⟨100, 100⟩, damage := 0, speed := 1, distance := ⟨3⟩ } ]

/-- The same three enemies except that the first member survives one hit
of killAttack. -/
def surviveList : List Enemy :=
  [ { hp := ⟨100, 100⟩, damage := 0, speed := 1, distance := ⟨1⟩ }
  , { hp := ⟨100, 100⟩, damage := 0, speed := 1, distance := ⟨2⟩ }
  , { hp := ⟨100, 100⟩, damage := 0, speed := 1, distance := ⟨3⟩ } ]

/-- C3: a struck in-range enemy whose hit points drop to ≤ 0 is dropped
from the pass result while the walk continues with the budget advanced
exactly as for a survivor, and a struck survivor stays, modified only in
its current hit points; concretely, whether or not the closest enemy dies
to the hit, the second enemy is struck all the same and the third is left
untouched with the budget spent. -/
theorem attack_kill_removal :
    (∀ (atk : BasicAttack) (t : Nat) (e : Enemy) (es : List Enemy),
      t < atk.max_targets → e.distance.val ≤ atk.range →
      (((e.hp.take_damage atk.damage).current ≤ 0 →
        attackPass atk t (e :: es) = attackPass atk (t + 1) es) ∧
      (0 < (e.hp.take_damage atk.damage).current →
        attackPass atk t (e :: es) =
          { e with hp := e.hp.take_damage atk.damage } :: attackPass atk (t + 1) es))) ∧
    attackPass killAttack 0 killList =
      [ { hp := ⟨100, 90⟩, damage := 0, speed := 1, distance := ⟨2⟩ }
      , { hp := ⟨100, 100⟩, damage := 0, speed := 1, distance := ⟨3⟩ } ] ∧
    attackPass killAttack 0 surviveList =
      [ { hp := ⟨100, 90⟩, damage := 0, speed := 1, distance := ⟨1⟩ }
      , { hp := ⟨100, 90⟩, damage := 0, speed := 1, distance := ⟨2⟩ }
      , { hp := ⟨100, 100⟩, damage := 0, speed := 1, distance := ⟨3⟩ } ] := by
  refine ⟨fun atk t e es ht hr => ⟨fun hk => ?_, fun hs => ?_⟩, ?_, ?_⟩
  · rw [attackPass, if_neg (not_le.2 ht), if_pos hr, if_pos hk]
  · rw [attackPass, if_neg (not_le.2 ht), if_pos hr, if_neg (not_le.2 hs)]
  · norm_num [killAttack, killList, attackPass, HitPoints.take_damage, Timer.new]
  · norm_num [killAttack, surviveList, attackPass, HitPoints.take_damage, Timer.new]

/-- Witness for attack_kill_removal at a concrete input. -/
theorem attack_kill_removal_witness :
    attackPass killAttack 0
        [ { hp := ⟨5, 5⟩, damage := 0, speed := 1, distance := ⟨1⟩ } ] =
      attackPass killAttack 1 [] :=
  ((attack_kill_removal.1 killAttack 0
      { hp := ⟨5, 5⟩, damage := 0, speed := 1, distance := ⟨1⟩ } []
      (by norm_num [killAttack]) (by norm_num [killAttack])).1
    (by norm_num [killAttack, HitPoints.take_damage]))

/-- The enemy of the arrival scenario: distance 5, speed 10, damage 2. -/
def arrivalEnemy : Enemy :=
  { hp := HitPoints.new_full 10, damage := 2, speed := 10, distance := ⟨5⟩ }

/-- A game state holding only arrivalEnemy, with base hit points 100 and
no timer due to fire within the next time unit. -/
def arrivalState : GameState :=
  { excellency :=
      { hp := HitPoints.new_full 100
        basic_attack :=
          { cooldown_timer := Timer.new 1000, damage := 4, range := 35, max_targets := 3 }
        big_attack :=
          { cooldown_timer := Timer.new 1000, damage := 30, range := 20, max_targets := 10 } }
    enemies := [arrivalEnemy]
    enemy_spawner := { timer := Timer.new 1000, maximum_hp := 10, speed := 5, damage := 2 } }

/-- C8: Enemy.tick decreases distance by speed times delta, leaves every
other field unchanged, and returns Normal exactly when the new distance is
positive and ReachedExcellency exactly when it is ≤ 0; the arrival enemy
with distance 5 and speed 10 ticked by 1 ends at distance -5 with outcome
ReachedExcellency, and a full game tick on a state holding only that enemy
removes it and lowers the base hit points by exactly its damage, from 100
to 98. -/
theorem enemy_arrival :
    (∀ (e : Enemy) (delta : ℚ),
      (e.tick delta).1.distance.val = e.distance.val - delta * e.speed ∧
      (e.tick delta).1.hp = e.hp ∧ (e.tick delta).1.damage = e.damage ∧
      (e.tick delta).1.speed = e.speed ∧
      ((e.tick delta).2 = EnemyAfterTick.Normal ↔ 0 < e.distance.val - delta * e.speed) ∧
      ((e.tick delta).2 = EnemyAfterTick.ReachedExcellency ↔
        e.distance.val - delta * e.speed ≤ 0)) ∧
    (arrivalEnemy.tick 1).1.distance.val = -5 ∧
    (arrivalEnemy.tick 1).2 = EnemyAfterTick.ReachedExcellency ∧
    (GameState.tick arrivalState 1).enemies = [] ∧
    (GameState.tick arrivalState 1).excellency.hp.current = 98 := by
  refine ⟨fun e delta => ?_, ?_, ?_, ?_, ?_⟩
  · by_cases h : 0 < e.distance.val - delta * e.speed
    · simp only [Enemy.tick] at *
      simp [h]
      linarith
    · simp [Enemy.tick, h, not_lt.1 h]
  · norm_num [arrivalEnemy, Enemy.tick, HitPoints.new_full]
  · norm_num [arrivalEnemy, Enemy.tick, HitPoints.new_full]
  · norm_num [GameState.tick, arrivalState, arrivalEnemy, moveEnemies, Enemy.tick,
      sortEnemies, List.insertionSort, enemyLE, attackPass, Timer.tick, Timer.new,
      HitPoints.new_full, HitPoints.take_damage, Distance.start]
  · norm_num [GameState.tick, arrivalState, arrivalEnemy, moveEnemies, Enemy.tick,
      sortEnemies, List.insertionSort, enemyLE, attackPass, Timer.tick, Timer.new,
      HitPoints.new_full, HitPoints.take_damage, Distance.start]

/-- A game state with no enemies whose spawner timer, of period 1, fires
on the next tick of one time unit, while no attack timer fires. -/
def spawnState : GameState :=
  { excellency :=
      { hp := HitPoints.new_full 100
        basic_attack :=
          { cooldown_timer := Timer.new 1000, damage := 4, range := 35, max_targets := 3 }
        big_attack :=
          { cooldown_timer := Timer.new 1000, damage := 30, range := 20, max_targets := 10 } }
    enemies := []
    enemy_spawner := { timer := Timer.new 1, maximum_hp := 10, speed := 5, damage := 2 } }

/-- The same state with a spawner period of 5, so that a tick of one time
unit does not fire the spawner. -/
def noSpawnState : GameState :=
  { excellency :=
      { hp := HitPoints.new_full 100
        basic_attack :=
          { cooldown_timer := Timer.new 1000, damage := 4, range := 35, max_targets := 3 }
        big_attack :=
          { cooldown_timer := Timer.new 1000, damage := 30, range := 20, max_targets := 10 } }
    enemies := []
    enemy_spawner := { timer := Timer.new 5, maximum_hp := 10, speed := 5, damage := 2 } }

/-- C9: the spawn stage appends exactly one enemy when the spawner timer
fires and none otherwise; the spawned enemy has full hit points and damage
and speed copied from the spawner configuration with distance at the
starting constant 100; concretely a tick of an empty collection with a
firing spawner yields exactly one such enemy, a tick whose delta spans ten
spawn periods still yields only one enemy, and a tick with a non-firing
spawner yields none. -/
theorem spawn_exactly_one :
    (∀ (delta : ℚ) (gs : GameState),
      ((gs.enemy_spawner.timer.tick delta).has_just_finished = true →
        (stageSpawn delta gs).enemies = gs.enemies ++ [spawnedEnemy gs.enemy_spawner]) ∧
      ((gs.enemy_spawner.timer.tick delta).has_just_finished = false →
        (stageSpawn delta gs).enemies = gs.enemies)) ∧
    (∀ sp : EnemySpawner,
      (spawnedEnemy sp).hp.current = sp.maximum_hp ∧
      (spawnedEnemy sp).hp.maximum = sp.maximum_hp ∧
      (spawnedEnemy sp).damage = sp.damage ∧
      (spawnedEnemy sp).speed = sp.speed ∧
      (spawnedEnemy sp).distance.val = 100) ∧
    (GameState.tick spawnState 1).enemies =
      [ { hp := ⟨10, 10⟩, damage := 2, speed := 5, distance := ⟨100⟩ } ] ∧
    (GameState.tick spawnState 10).enemies.length = 1 ∧
    (GameState.tick noSpawnState 1).enemies = [] := by
  refine ⟨fun delta gs => ⟨fun h => ?_, fun h => ?_⟩,
    fun sp => ⟨rfl, rfl, rfl, rfl, rfl⟩, ?_, ?_, ?_⟩
  · simp [stageSpawn, h]
  · simp [stageSpawn, h]
  · norm_num [GameState.tick, spawnState, moveEnemies, sortEnemies, List.insertionSort,
      enemyLE, attackPass, Timer.tick, Timer.new, HitPoints.new_full, Distance.start]
  · norm_num [GameState.tick, spawnState, moveEnemies, sortEnemies, List.insertionSort,
      enemyLE, attackPass, Timer.tick, Timer.new, HitPoints.new_full, Distance.start]
  · norm_num [GameState.tick, noSpawnState, moveEnemies, sortEnemies, List.insertionSort,
      enemyLE, attackPass, Timer.tick, Timer.new, HitPoints.new_full, Distance.start]

/-- Witness for spawn_exactly_one at a concrete input. -/
theorem spawn_exactly_one_witness :
    (stageSpawn 1 spawnState).enemies =
      spawnState.enemies ++ [spawnedEnemy spawnState.enemy_spawner] :=
  (spawn_exactly_one.1 1 spawnState).1 (by
    rw [show spawnState.enemy_spawner.timer = Timer.new 1 from rfl,
      Timer.tick_fire (Timer.new 1) 1 rfl (by norm_num [Timer.new])])

/-- A state in which both attacks fire on the next tick of one time unit:
the basic attack (damage 5, one target) kills the closest enemy, so the
big attack (damage 7, one target) strikes the second enemy instead. -/
def killChainState : GameState :=
  { excellency :=
      { hp := HitPoints.new_full 100
        basic_attack :=
          { cooldown_timer := Timer.new 1, damage := 5, range := 50, max_targets := 1 }
        big_attack :=
          { cooldown_timer := Timer.new 1, damage := 7, range := 50, max_targets := 1 } }
    enemies :=
      [ { hp := HitPoints.new_full 1, damage := 0, speed := 1, distance := ⟨6⟩ }
      , { hp := HitPoints.new_full 100, damage := 0, speed := 1, distance := ⟨11⟩ } ]
    enemy_spawner := { timer := Timer.new 1000, maximum_hp := 10, speed := 5, damage := 2 } }

/-- C1: every tick is the composition, in this fixed order, of movement
with base-damage reconciliation, spawner advance with conditional spawn,
the ascending sort by distance, the basic attack resolution and the big
attack resolution; concretely, in killChainState both attacks fire in the
same tick, each capped at one target, and the basic attack kills the
closest enemy first, so the big attack strikes the second enemy, which it
would only do seeing the first already dead. -/
theorem tick_stage_order :
    (∀ (gs : GameState) (delta : ℚ),
      gs.tick delta =
        stageBig delta (stageBasic delta (stageSort (stageSpawn delta (stageMove delta gs))))) ∧
    (GameState.tick killChainState 1).enemies =
      [ { hp := ⟨100, 93⟩, damage := 0, speed := 1, distance := ⟨10⟩ } ] := by
  refine ⟨fun gs delta => rfl, ?_⟩
  norm_num [GameState.tick, killChainState, moveEnemies, Enemy.tick, sortEnemies,
    List.insertionSort, List.orderedInsert, enemyLE, attackPass, Timer.tick, Timer.new,
    HitPoints.new_full, HitPoints.take_damage, Distance.start]

/- Helper lemmas for the sortedness invariant. -/


theorem attackPass_dist_sublist (atk : BasicAttack) :
    ∀ (t : Nat) (es : List Enemy),
      List.Sublist ((attackPass atk t es).map fun e => e.distance.val)
        (es.map fun e => e.distance.val) := by
  intro t es
  induction es generalizing t with
  | nil => exact List.Sublist.refl _
  | cons e rest ih =>
    rw [attackPass]
    by_cases h1 : t ≥ atk.max_targets
    · rw [if_pos h1, List.map_cons, List.map_cons]
      exact (ih t).cons₂ _
    · rw [if_neg h1]
      by_cases h2 : e.distance.val ≤ atk.range
      · rw [if_pos h2]
        by_cases h3 : ({ e with hp := e.hp.take_damage atk.damage } : Enemy).hp.current ≤ 0
        · rw [if_pos h3, List.map_cons]
          exact (ih (t + 1)).cons _
        · rw [if_neg h3, List.map_cons, List.map_cons]
          exact (ih (t + 1)).cons₂ _
      · rw [if_neg h2, List.map_cons, List.map_cons]
        exact (ih t).cons₂ _

theorem sorted_attackPass (atk : BasicAttack) (t : Nat) (es : List Enemy)
    (h : List.Sorted enemyLE es) : List.Sorted enemyLE (attackPass atk t es) := by
  have h1 : List.Pairwise (fun a b : Enemy => a.distance.val ≤ b.distance.val) es := h
  have h2 : ((es.map fun e => e.distance.val).Pairwise (· ≤ ·)) :=
    List.pairwise_map.2 h1
  have h3 : (((attackPass atk t es).map fun e => e.distance.val).Pairwise (· ≤ ·)) :=
    h2.sublist (attackPass_dist_sublist atk t es)
  have h4 : List.Pairwise (fun a b : Enemy => a.distance.val ≤ b.distance.val)
      (attackPass atk t es) := List.pairwise_map.1 h3
  exact h4

theorem sorted_sortEnemies (es : List Enemy) : List.Sorted enemyLE (sortEnemies es) :=
  List.sorted_insertionSort enemyLE es

/-- C10: at the end of every tick, the committed enemy collection is
sorted ascending by distance: the sort establishes the order and both
attack passes only damage enemies in place or drop them, an
order-preserving operation, so the ordering survives to the commit. -/
theorem enemies_sorted_after_tick (gs : GameState) (delta : ℚ) :
    List.Sorted enemyLE (gs.tick delta).enemies := by
  simp only [GameState.tick]
  split_ifs <;>
    first
    | exact sorted_attackPass _ _ _ (sorted_attackPass _ _ _ (sorted_sortEnemies _))
    | exact sorted_attackPass _ _ _ (sorted_sortEnemies _)
    | exact sorted_sortEnemies _
